import Mathlib

/-!
Verification of the mem0-mcp robot-navigation memory server
(src/node/mem0/src/index.ts).

Strings are modelled as `List Char` (`Str`).  The external mem0 memory
service is modelled as function parameters returning `Except`, so that a
failing remote call is an `Except.error` and the try/catch blocks of the
source become explicit `match`es.  JavaScript truthiness of a string
(`s || dflt`) is modelled by `orDefault`: the empty string is falsy.
-/

namespace Mem0Robot

abbrev Str := List Char

/-- JS `v || dflt` for an optional string field: `undefined` and the
empty string are falsy, so both fall back to the default. -/
def orDefault (v : Option Str) (dflt : Str) : Str :=
  match v with
  | none => dflt
  | some s => if s = [] then dflt else s

/-- The optional `metadata` object of the store-robot-observation tool
(index.ts lines 54-58): three optional string sub-fields. -/
structure Metadata where
  location : Option Str
  timestamp : Option Str
  environmentalConditions : Option Str
deriving DecidableEq

/-- index.ts lines 62-64: the string forwarded to the memory service.
`now` models `new Date().toISOString()`. -/
def formatObservation (observation : Str) (metadata : Option Metadata) (now : Str) : Str :=
  match metadata with
  | none => observation
  | some m =>
      "Observation: ".toList ++ observation
        ++ "\nLocation: ".toList ++ orDefault m.location ("unknown".toList)
        ++ "\nTimestamp: ".toList ++ orDefault m.timestamp now
        ++ "\nConditions: ".toList ++ orDefault m.environmentalConditions ("not specified".toList)

/-- A message in the list passed to `memoryClient.add` (index.ts 27-30). -/
structure Message where
  role : Str
  content : Str
deriving DecidableEq

/-- index.ts lines 27-30: the fixed message pair sent to the service. -/
def robotMessages (content : Str) : List Message :=
  [⟨"system".toList, "Robot navigation memory system".toList⟩,
   ⟨"user".toList, content⟩]

/-- index.ts lines 25-35, `addMemory`: calls the service `add` operation
inside try/catch; a service error is logged and swallowed, so the helper
always returns normally (`Except.ok`). -/
def addMemory (add : List Message → Str → Except Str Unit) (content userId : Str) :
    Except Str Unit :=
  match add (robotMessages content) userId with
  | Except.ok u => Except.ok u
  | Except.error _ => Except.ok ()

/-- index.ts lines 61-75, the store-robot-observation handler: format the
observation, forward it via `addMemory`, and answer with a fixed text. -/
def storeRobotObservation (add : List Message → Str → Except Str Unit)
    (observation : Str) (metadata : Option Metadata) (userId now : Str) :
    Except Str Str := do
  let formattedObservation := formatObservation observation metadata now
  let _ ← addMemory add formattedObservation userId
  pure ("Robot observation stored successfully".toList)

/-- A search result returned by the memory service: `{memory, score}`. -/
structure SearchResult where
  memory : Str
  score : Int
deriving DecidableEq

/-- index.ts lines 38-46, `searchMemories`: calls the service `search`
operation inside try/catch; on error returns the empty list. -/
def searchMemories (search : Str → Str → Except Str (List SearchResult))
    (query userId : Str) : List SearchResult :=
  match search query userId with
  | Except.ok results => results
  | Except.error _ => []

/-- index.ts line 88: the three-line rendering of one search result. -/
def renderResult (r : SearchResult) : Str :=
  "Observation: ".toList ++ r.memory ++ "\nRelevance: ".toList
    ++ (toString r.score).toList ++ "\n---".toList

/-- JS `Array.prototype.join("\n")`. -/
def joinNewline : List Str → Str
  | [] => []
  | [x] => x
  | x :: y :: rest => x ++ '\n' :: joinNewline (y :: rest)

/-- index.ts lines 85-98, the search-robot-observations handler: render
results; the JS `formattedResults || "No relevant observations found"`
falls back exactly when the joined string is empty. -/
def searchRobotObservations (search : Str → Str → Except Str (List SearchResult))
    (query userId : Str) : Str :=
  let results := searchMemories search query userId
  let formattedResults := joinNewline (results.map renderResult)
  if formattedResults = [] then "No relevant observations found".toList else formattedResults

/-- JS `hay.includes(needle)`: contiguous-substring containment. -/
def includesSub (hay needle : Str) : Bool :=
  decide (needle <:+: hay)

/-- JS `s.substring(0, 50)`: the first `min 50 s.length` characters. -/
def first50 (s : Str) : Str := s.take 50

/-- index.ts lines 121-123: drop every result whose memory contains the
first 50 characters of the current observation. -/
def filterPrevious (results : List SearchResult) (currentObservation : Str) :
    List SearchResult :=
  results.filter (fun r => !(includesSub r.memory (first50 currentObservation)))

/-- index.ts line 117: the recall query built from the location. -/
def queryFor (location : Str) : Str :=
  "What did I previously observe at location ".toList ++ location ++ "?".toList

/-- index.ts line 130: the new-territory message. -/
def newTerritoryMsg (location : Str) : Str :=
  "No previous observations found at ".toList ++ location
    ++ ". This is new territory.".toList

/-- The JSON report of detect-environment-changes (index.ts 136-144);
`previousObservations` pairs are `(observation, relevance)`. -/
structure ChangeReport where
  currentObservation : Str
  location : Str
  timestamp : Str
  previousObservations : List (Str × Int)
deriving DecidableEq

/-- The text payload of detect-environment-changes: either the literal
new-territory message or the JSON report. -/
inductive DetectResult where
  | newTerritory : Str → DetectResult
  | report : ChangeReport → DetectResult
deriving DecidableEq

/-- index.ts lines 110-154, the detect-environment-changes handler. -/
def detectEnvironmentChanges (add : List Message → Str → Except Str Unit)
    (search : Str → Str → Except Str (List SearchResult))
    (currentObservation location userId now : Str) : DetectResult :=
  let formattedObservation :=
    "Observation: ".toList ++ currentObservation ++ "\nLocation: ".toList ++ location
      ++ "\nTimestamp: ".toList ++ now
  let _ := addMemory add formattedObservation userId
  let results := searchMemories search (queryFor location) userId
  let previousObservations := filterPrevious results currentObservation
  if previousObservations = [] then
    DetectResult.newTerritory (newTerritoryMsg location)
  else
    DetectResult.report
      ⟨currentObservation, location, now,
       (previousObservations.take 2).map (fun r => (r.memory, r.score))⟩

/-- Case-insensitive character comparison (the regex `i` flag). -/
def ciCharEq (a b : Char) : Bool := a.toLower = b.toLower

/-- Case-insensitive "starts with" for the literal part of the pattern. -/
def ciStartsWith : Str → Str → Bool
  | [], _ => true
  | _ :: _, [] => false
  | p :: ps, c :: cs => ciCharEq p c && ciStartsWith ps cs

/-- One attempted match of `/Location: ([^\n]+)/i` at the head of `s`:
the literal `Location: ` must match case-insensitively and the capture
`([^\n]+)` is the maximal nonempty run of non-newline characters after it. -/
def matchLocationAt (s : Str) : Option Str :=
  if ciStartsWith ("Location: ".toList) s then
    let cap := (s.drop 10).takeWhile (fun c => c ≠ '\n')
    if cap = [] then none else some cap
  else none

/-- Leftmost match of `/Location: ([^\n]+)/i` over the whole string,
as JS `memory.match(...)` finds it: try each start position left to right. -/
def firstLocationMatch : Str → Option Str
  | [] => none
  | c :: rest =>
      match matchLocationAt (c :: rest) with
      | some cap => some cap
      | none => firstLocationMatch rest

/-- index.ts lines 174-179: the location key of one memory entry; the
capture group is used verbatim, `unknown` when the pattern has no match. -/
def extractLocation (memory : Str) : Str :=
  match firstLocationMatch memory with
  | some cap => cap
  | none => "unknown".toList

/-- index.ts lines 181-185: push an entry onto its location bucket,
creating the bucket at the end on first sight of the key (JS object
insertion order). -/
def insertIntoMap (m : List (Str × List Str)) (key : Str) (v : Str) :
    List (Str × List Str) :=
  match m with
  | [] => [(key, [v])]
  | (k, vs) :: rest =>
      if k = key then (k, vs ++ [v]) :: rest else (k, vs) :: insertIntoMap rest key v

/-- index.ts lines 169-186: group the listed memories by extracted location. -/
def buildLocationMap (memories : List Str) : List (Str × List Str) :=
  memories.foldl (fun m mem => insertIntoMap m (extractLocation mem) mem) []

/-- The grouping fold of build-spatial-map started from an arbitrary
accumulator, for induction. -/
def spatialFold (acc : List (Str × List Str)) (L : List Str) : List (Str × List Str) :=
  L.foldl (fun m mem => insertIntoMap m (extractLocation mem) mem) acc

/-- The JSON payload of build-spatial-map (index.ts 192-196). -/
structure SpatialMapResult where
  spatialMap : List (Str × List Str)
  locationCount : Nat
  totalObservations : Nat
deriving DecidableEq

/-- index.ts lines 169-196: the successful build-spatial-map response
computed from the service listing. -/
def buildSpatialMap (results : List Str) : SpatialMapResult :=
  let locationMap := buildLocationMap results
  ⟨locationMap, locationMap.length, results.length⟩

/-- Modelled from the spec: the external memory service's `get_all`
pagination (`list up to 50 stored entries for userId (page 1, page size
50)`), absent from src/ because the service is the third-party mem0
client.  Page `p` of size `n` over the remote entry list is the slice
starting at `(p-1)*n` of length at most `n`. -/
def listAll (remote : List Str) (page pageSize : Nat) : List Str :=
  (remote.drop ((page - 1) * pageSize)).take pageSize

/-- index.ts line 166 composed with the service model: the
build-spatial-map tool requests exactly page 1 with page size 50. -/
def buildSpatialMapTool (remote : List Str) : SpatialMapResult :=
  buildSpatialMap (listAll remote 1 50)

/-- Sum of the bucket sizes of a location map. -/
def sumLens (m : List (Str × List Str)) : Nat :=
  (m.map (fun kv => kv.2.length)).sum

/-- The keys of a location map in insertion order. -/
def mapKeys (m : List (Str × List Str)) : List Str :=
  m.map Prod.fst

/-- JS whitespace for `String.prototype.trim` (the characters relevant
here: space, tab, newline, carriage return, form feed, vertical tab). -/
def isWsChar (c : Char) : Bool :=
  c = ' ' || c = '\t' || c = '\n' || c = '\r' || c = '\x0c' || c = '\x0b'

/-- Trim whitespace from both ends of a string. -/
def trimStr (s : Str) : Str :=
  ((s.dropWhile isWsChar).reverse.dropWhile isWsChar).reverse

/-- The location-extraction rule as the claim words it (refinement
comparison definition, NOT translated from the source): first capture
group of the first case-insensitive match, with surrounding whitespace
trimmed; `unknown` when there is no match. -/
def extractLocationClaimed (memory : Str) : Str :=
  match firstLocationMatch memory with
  | some cap => trimStr cap
  | none => "unknown".toList

/-! ### Helper lemmas -/

lemma take_min_self (s : Str) : s.take (min 50 s.length) = s.take 50 := by
  rw [List.take_eq_take]
  omega

lemma mem_filterPrevious (results : List SearchResult) (cur : Str) (r : SearchResult) :
    r ∈ filterPrevious results cur ↔ r ∈ results ∧ ¬ (first50 cur <:+: r.memory) := by
  simp [filterPrevious, List.mem_filter, includesSub]

/-! ### C3 -/

/-- C3: a result of recall is dropped from previousObservations exactly when
its memory contains the first min(50, |currentObservation|) characters of
currentObservation as a substring. -/
theorem detect_filter_drop_iff (results : List SearchResult) (cur : Str) (r : SearchResult)
    (hr : r ∈ results) :
    (r ∉ filterPrevious results cur) ↔ cur.take (min 50 cur.length) <:+: r.memory := by
  rw [take_min_self]
  simp [mem_filterPrevious, hr, first50]

/-- C3 witness: concrete instance of the drop condition. -/
theorem detect_filter_drop_iff_witness :
    ((⟨"say hello world".toList, 1⟩ : SearchResult) ∉
        filterPrevious [⟨"say hello world".toList, 1⟩] ("hello".toList)) ↔
      ("hello".toList).take (min 50 ("hello".toList).length) <:+:
        ("say hello world".toList) :=
  detect_filter_drop_iff [⟨"say hello world".toList, 1⟩] ("hello".toList)
    ⟨"say hello world".toList, 1⟩ (by simp)

/-! ### C4 -/

/-- C4: store-robot-observation always answers with the fixed success text,
for every input and every behavior of the service add operation, including
a failing one: the failure is swallowed inside addMemory. -/
theorem store_never_fails (add : List Message → Str → Except Str Unit)
    (observation : Str) (metadata : Option Metadata) (userId now : Str) :
    storeRobotObservation add observation metadata userId now =
      Except.ok ("Robot observation stored successfully".toList) := by
  cases hadd : add (robotMessages (formatObservation observation metadata now)) userId <;>
    simp [storeRobotObservation, addMemory, hadd, Except.bind]

/-! ### C5 -/

/-- C5: when the service search operation fails, searchMemories returns the
empty list and search-robot-observations renders the literal fallback text. -/
theorem search_fail_open (search : Str → Str → Except Str (List SearchResult))
    (query userId err : Str) (h : search query userId = Except.error err) :
    searchMemories search query userId = [] ∧
    searchRobotObservations search query userId = "No relevant observations found".toList := by
  constructor
  · simp [searchMemories, h]
  · simp [searchRobotObservations, searchMemories, h, joinNewline]

/-- C5 witness: a concrete always-failing search operation. -/
theorem search_fail_open_witness :
    searchMemories (fun _ _ => Except.error ("down".toList)) ("q".toList) ("u".toList) = [] ∧
    searchRobotObservations (fun _ _ => Except.error ("down".toList)) ("q".toList) ("u".toList) =
      "No relevant observations found".toList :=
  search_fail_open (fun _ _ => Except.error ("down".toList)) ("q".toList) ("u".toList)
    ("down".toList) rfl

/-! ### C1 -/

/-- C1 counterexample: with all three sub-fields present but location the
empty string, the forwarded string uses the default token `unknown` instead
of the supplied (empty) value, so the claimed verbatim block is not produced. -/
theorem store_empty_location_defaulted :
    formatObservation ("obs".toList)
        (some ⟨some [], some ("t".toList), some ("c".toList)⟩) ("now".toList) ≠
      "Observation: obs\nLocation: \nTimestamp: t\nConditions: c".toList ∧
    formatObservation ("obs".toList)
        (some ⟨some [], some ("t".toList), some ("c".toList)⟩) ("now".toList) =
      "Observation: obs\nLocation: unknown\nTimestamp: t\nConditions: c".toList := by
  constructor <;> decide

/-- C1 (amended): when all three metadata sub-fields are present and
nonempty, the forwarded string is the four-line block with the supplied
values substituted verbatim, no default token in place of any of them. -/
theorem store_fields_verbatim (observation : Str) (m : Metadata) (now loc ts cond : Str)
    (hl : m.location = some loc) (ht : m.timestamp = some ts)
    (hc : m.environmentalConditions = some cond)
    (hl0 : loc ≠ []) (ht0 : ts ≠ []) (hc0 : cond ≠ []) :
    formatObservation observation (some m) now =
      "Observation: ".toList ++ observation
        ++ "\nLocation: ".toList ++ loc
        ++ "\nTimestamp: ".toList ++ ts
        ++ "\nConditions: ".toList ++ cond := by
  simp [formatObservation, orDefault, hl, ht, hc, hl0, ht0, hc0]

/-- C1 witness: concrete metadata with all sub-fields present and nonempty. -/
theorem store_fields_verbatim_witness :
    formatObservation ("o".toList)
        (some ⟨some ("L1".toList), some ("T1".toList), some ("C1".toList)⟩) ("N".toList) =
      "Observation: ".toList ++ "o".toList
        ++ "\nLocation: ".toList ++ "L1".toList
        ++ "\nTimestamp: ".toList ++ "T1".toList
        ++ "\nConditions: ".toList ++ "C1".toList :=
  store_fields_verbatim ("o".toList) ⟨some ("L1".toList), some ("T1".toList), some ("C1".toList)⟩
    ("N".toList) ("L1".toList) ("T1".toList) ("C1".toList) rfl rfl rfl
    (by decide) (by decide) (by decide)

/-! ### C8 -/

/-- C8: an empty metadata object still selects the four-line branch, with
every field defaulted; the result is never the raw observation text, which
only the metadata-absent branch produces. -/
theorem store_empty_metadata_block (observation now : Str) :
    formatObservation observation (some ⟨none, none, none⟩) now =
      "Observation: ".toList ++ observation
        ++ "\nLocation: ".toList ++ "unknown".toList
        ++ "\nTimestamp: ".toList ++ now
        ++ "\nConditions: ".toList ++ "not specified".toList ∧
    formatObservation observation (some ⟨none, none, none⟩) now ≠ observation ∧
    formatObservation observation none now = observation := by
  refine ⟨by simp [formatObservation, orDefault], ?_, rfl⟩
  intro h
  have hlen := congrArg List.length h
  simp only [formatObservation, orDefault, List.length_append] at hlen
  have e1 : ("Observation: ".toList).length = 13 := by decide
  have e2 : ("\nLocation: ".toList).length = 11 := by decide
  have e3 : ("unknown".toList).length = 7 := by decide
  have e4 : ("\nTimestamp: ".toList).length = 12 := by decide
  have e5 : ("\nConditions: ".toList).length = 13 := by decide
  have e6 : ("not specified".toList).length = 13 := by decide
  rw [e1, e2, e3, e4, e5, e6] at hlen
  omega

/-! ### C9 -/

/-- C9: with the empty string as currentObservation, the prefix filter drops
every recall result, so detect-environment-changes always answers with the
new-territory message. -/
theorem detect_empty_observation_new_territory (add : List Message → Str → Except Str Unit)
    (search : Str → Str → Except Str (List SearchResult)) (location userId now : Str) :
    detectEnvironmentChanges add search [] location userId now =
      DetectResult.newTerritory (newTerritoryMsg location) := by
  have hfilter : filterPrevious (searchMemories search (queryFor location) userId) [] = [] := by
    simp [filterPrevious, includesSub, first50, List.nil_infix]
  simp [detectEnvironmentChanges, hfilter]

/-! ### Spatial-map helper lemmas -/

lemma buildLocationMap_eq_spatialFold (L : List Str) :
    buildLocationMap L = spatialFold [] L := rfl

lemma spatialFold_cons (acc : List (Str × List Str)) (mem : Str) (L : List Str) :
    spatialFold acc (mem :: L) = spatialFold (insertIntoMap acc (extractLocation mem) mem) L := rfl

lemma sumLens_insert (m : List (Str × List Str)) (k v : Str) :
    sumLens (insertIntoMap m k v) = sumLens m + 1 := by
  induction m with
  | nil => simp [insertIntoMap, sumLens]
  | cons kv rest ih =>
      obtain ⟨k0, vs0⟩ := kv
      by_cases hk : k0 = k
      · simp [insertIntoMap, hk, sumLens]
        omega
      · simp only [insertIntoMap, hk, if_false, sumLens, List.map_cons, List.sum_cons] at *
        omega

lemma mapKeys_cons (kv : Str × List Str) (rest : List (Str × List Str)) :
    mapKeys (kv :: rest) = kv.1 :: mapKeys rest := rfl

lemma mapKeys_insert (m : List (Str × List Str)) (k v : Str) :
    mapKeys (insertIntoMap m k v) =
      if k ∈ mapKeys m then mapKeys m else mapKeys m ++ [k] := by
  induction m with
  | nil => simp [insertIntoMap, mapKeys]
  | cons kv rest ih =>
      obtain ⟨k0, vs0⟩ := kv
      by_cases hk : k0 = k
      · subst hk
        simp [insertIntoMap, mapKeys_cons]
      · rw [show insertIntoMap ((k0, vs0) :: rest) k v = (k0, vs0) :: insertIntoMap rest k v
            from by simp [insertIntoMap, hk]]
        rw [mapKeys_cons, mapKeys_cons, ih]
        by_cases hm : k ∈ mapKeys rest
        · rw [if_pos hm, if_pos (List.mem_cons_of_mem _ hm)]
        · rw [if_neg hm, if_neg (by simp [hm, Ne.symm hk])]
          simp

lemma keys_nodup_insert (m : List (Str × List Str)) (k v : Str)
    (h : (mapKeys m).Nodup) : (mapKeys (insertIntoMap m k v)).Nodup := by
  rw [mapKeys_insert]
  by_cases hm : k ∈ mapKeys m
  · simpa [hm] using h
  · simp [hm, List.nodup_append, h]

lemma buckets_nonempty_insert (m : List (Str × List Str)) (k v : Str)
    (h : ∀ kv ∈ m, kv.2 ≠ []) :
    ∀ kv ∈ insertIntoMap m k v, kv.2 ≠ [] := by
  induction m with
  | nil =>
      intro kv hkv
      simp [insertIntoMap] at hkv
      simp [hkv]
  | cons hd rest ih =>
      obtain ⟨k0, vs0⟩ := hd
      by_cases hk : k0 = k
      · intro kv hkv
        simp only [insertIntoMap, hk, if_true] at hkv
        rcases List.mem_cons.mp hkv with h1 | h1
        · simp [h1]
        · exact h kv (List.mem_cons_of_mem _ h1)
      · intro kv hkv
        simp only [insertIntoMap, hk, if_false] at hkv
        rcases List.mem_cons.mp hkv with h1 | h1
        · exact h kv (h1 ▸ List.mem_cons_self _ _)
        · exact ih (fun kv' hkv' => h kv' (List.mem_cons_of_mem _ hkv')) kv h1

lemma bucket_vals_insert (P : Str → Prop) (m : List (Str × List Str)) (k v : Str)
    (h : ∀ kv ∈ m, ∀ x ∈ kv.2, P x) (hv : P v) :
    ∀ kv ∈ insertIntoMap m k v, ∀ x ∈ kv.2, P x := by
  induction m with
  | nil =>
      intro kv hkv x hx
      simp [insertIntoMap] at hkv
      subst hkv
      simp at hx
      exact hx ▸ hv
  | cons hd rest ih =>
      obtain ⟨k0, vs0⟩ := hd
      by_cases hk : k0 = k
      · intro kv hkv x hx
        simp only [insertIntoMap, hk, if_true] at hkv
        rcases List.mem_cons.mp hkv with h1 | h1
        · subst h1
          simp only [List.mem_append, List.mem_singleton] at hx
          rcases hx with hx | hx
          · exact h (k0, vs0) (List.mem_cons_self _ _) x hx
          · exact hx ▸ hv
        · exact h kv (List.mem_cons_of_mem _ h1) x hx
      · intro kv hkv x hx
        simp only [insertIntoMap, hk, if_false] at hkv
        rcases List.mem_cons.mp hkv with h1 | h1
        · exact h kv (h1 ▸ List.mem_cons_self _ _) x hx
        · exact ih (fun kv' hkv' => h kv' (List.mem_cons_of_mem _ hkv')) kv h1 x hx

lemma insert_mem_self (m : List (Str × List Str)) (k v : Str) :
    ∃ vs, (k, vs) ∈ insertIntoMap m k v ∧ v ∈ vs := by
  induction m with
  | nil => exact ⟨[v], by simp [insertIntoMap]⟩
  | cons hd rest ih =>
      obtain ⟨k0, vs0⟩ := hd
      by_cases hk : k0 = k
      · subst hk
        exact ⟨vs0 ++ [v], by simp [insertIntoMap]⟩
      · obtain ⟨vs, hvs, hv⟩ := ih
        exact ⟨vs, by simp [insertIntoMap, hk, hvs], hv⟩

lemma insert_mem_preserve (m : List (Str × List Str)) (k v k' : Str) (vs' : List Str) (x : Str)
    (hm : (k', vs') ∈ m) (hx : x ∈ vs') :
    ∃ vs2, (k', vs2) ∈ insertIntoMap m k v ∧ x ∈ vs2 := by
  induction m with
  | nil => simp at hm
  | cons hd rest ih =>
      obtain ⟨k0, vs0⟩ := hd
      by_cases hk : k0 = k
      · rcases List.mem_cons.mp hm with h1 | h1
        · simp only [Prod.mk.injEq] at h1
          obtain ⟨he1, he2⟩ := h1
          subst he1
          subst he2
          exact ⟨vs' ++ [v], by simp [insertIntoMap, hk], List.mem_append_left _ hx⟩
        · exact ⟨vs', by simp [insertIntoMap, hk, h1], hx⟩
      · rcases List.mem_cons.mp hm with h1 | h1
        · exact ⟨vs', by simp [insertIntoMap, hk, h1], hx⟩
        · obtain ⟨vs2, hvs2, hx2⟩ := ih h1
          exact ⟨vs2, by simp [insertIntoMap, hk, hvs2], hx2⟩

lemma spatialFold_sumLens (L : List Str) :
    ∀ acc, sumLens (spatialFold acc L) = sumLens acc + L.length := by
  induction L with
  | nil => intro acc; simp [spatialFold]
  | cons mem L ih =>
      intro acc
      rw [spatialFold_cons, ih, sumLens_insert]
      simp
      omega

lemma spatialFold_nodup (L : List Str) :
    ∀ acc, (mapKeys acc).Nodup → (mapKeys (spatialFold acc L)).Nodup := by
  induction L with
  | nil => intro acc h; simpa [spatialFold] using h
  | cons mem L ih =>
      intro acc h
      rw [spatialFold_cons]
      exact ih _ (keys_nodup_insert _ _ _ h)

lemma spatialFold_nonempty (L : List Str) :
    ∀ acc, (∀ kv ∈ acc, kv.2 ≠ []) → ∀ kv ∈ spatialFold acc L, kv.2 ≠ [] := by
  induction L with
  | nil => intro acc h; simpa [spatialFold] using h
  | cons mem L ih =>
      intro acc h
      rw [spatialFold_cons]
      exact ih _ (buckets_nonempty_insert _ _ _ h)

lemma spatialFold_vals (P : Str → Prop) (L : List Str) :
    ∀ acc, (∀ kv ∈ acc, ∀ x ∈ kv.2, P x) → (∀ x ∈ L, P x) →
      ∀ kv ∈ spatialFold acc L, ∀ x ∈ kv.2, P x := by
  induction L with
  | nil => intro acc h _; simpa [spatialFold] using h
  | cons mem L ih =>
      intro acc h hL
      rw [spatialFold_cons]
      exact ih _ (bucket_vals_insert P _ _ _ h (hL mem (List.mem_cons_self _ _)))
        (fun x hx => hL x (List.mem_cons_of_mem _ hx))

lemma spatialFold_mem_preserve (L : List Str) :
    ∀ acc (k' : Str) (vs' : List Str) (x : Str), (k', vs') ∈ acc → x ∈ vs' →
      ∃ vs2, (k', vs2) ∈ spatialFold acc L ∧ x ∈ vs2 := by
  induction L with
  | nil => intro acc k' vs' x hm hx; exact ⟨vs', by simpa [spatialFold] using hm, hx⟩
  | cons mem L ih =>
      intro acc k' vs' x hm hx
      rw [spatialFold_cons]
      obtain ⟨vs2, hvs2, hx2⟩ := insert_mem_preserve acc (extractLocation mem) mem k' vs' x hm hx
      exact ih _ k' vs2 x hvs2 hx2

lemma spatialFold_mem_of_mem (L : List Str) (m : Str) (hm : m ∈ L) :
    ∀ acc, ∃ vs, (extractLocation m, vs) ∈ spatialFold acc L ∧ m ∈ vs := by
  induction L with
  | nil => simp at hm
  | cons mem L ih =>
      intro acc
      rcases List.mem_cons.mp hm with h1 | h1
      · subst h1
        rw [spatialFold_cons]
        obtain ⟨vs, hvs, hv⟩ := insert_mem_self acc (extractLocation m) m
        exact spatialFold_mem_preserve L _ _ vs m hvs hv
      · rw [spatialFold_cons]
        exact ih h1 _

/-! ### Leftmost-match characterization of the location regex -/

lemma matchLocationAt_nil : matchLocationAt [] = none := by decide

lemma firstLocationMatch_eq_some (s : Str) :
    ∀ (i : Nat) (cap : Str), matchLocationAt (s.drop i) = some cap →
      (∀ j, j < i → matchLocationAt (s.drop j) = none) →
      firstLocationMatch s = some cap := by
  induction s with
  | nil =>
      intro i cap h _
      rw [List.drop_nil, matchLocationAt_nil] at h
      exact absurd h (by simp)
  | cons c rest ih =>
      intro i cap h hnone
      cases i with
      | zero =>
          rw [List.drop_zero] at h
          simp only [firstLocationMatch]
          rw [h]
      | succ i =>
          have h0 : matchLocationAt (c :: rest) = none := by
            have := hnone 0 (Nat.succ_pos i)
            rwa [List.drop_zero] at this
          simp only [firstLocationMatch]
          rw [h0]
          refine ih i cap (by rwa [List.drop_succ_cons] at h) ?_
          intro j hj
          have := hnone (j + 1) (by omega)
          rwa [List.drop_succ_cons] at this

lemma firstLocationMatch_eq_none (s : Str)
    (h : ∀ i, matchLocationAt (s.drop i) = none) :
    firstLocationMatch s = none := by
  induction s with
  | nil => rfl
  | cons c rest ih =>
      have h0 : matchLocationAt (c :: rest) = none := by
        have := h 0
        rwa [List.drop_zero] at this
      simp only [firstLocationMatch]
      rw [h0]
      refine ih ?_
      intro i
      have := h (i + 1)
      rwa [List.drop_succ_cons] at this

/-! ### C2 -/

/-- C2 counterexample: an entry whose `Location:` line has a trailing space
is grouped under the untrimmed capture `A `, not the trimmed key `A` the
claim demands. -/
theorem spatial_key_not_trimmed :
    extractLocation ("Location: A \nx".toList) = "A ".toList ∧
    extractLocation ("Location: A \nx".toList) ≠
      extractLocationClaimed ("Location: A \nx".toList) ∧
    buildLocationMap ["Location: A \nx".toList] =
      [("A ".toList, ["Location: A \nx".toList])] := by
  refine ⟨by decide, by decide, by decide⟩

/-- C2 (amended): each entry is grouped under the key produced by the
location extraction, and that key is the first capture group of the first
(leftmost) case-insensitive match of the pattern, taken verbatim without
trimming; when no position matches, the key is `unknown`. -/
theorem spatial_key_first_match_untrimmed (memories : List Str) (m : Str)
    (hm : m ∈ memories) :
    (∃ vs, (extractLocation m, vs) ∈ buildLocationMap memories ∧ m ∈ vs) ∧
    (∀ i cap, matchLocationAt (m.drop i) = some cap →
        (∀ j, j < i → matchLocationAt (m.drop j) = none) →
      extractLocation m = cap) ∧
    ((∀ i, matchLocationAt (m.drop i) = none) → extractLocation m = "unknown".toList) := by
  refine ⟨?_, ?_, ?_⟩
  · rw [buildLocationMap_eq_spatialFold]
    exact spatialFold_mem_of_mem memories m hm []
  · intro i cap h1 h2
    rw [extractLocation, firstLocationMatch_eq_some m i cap h1 h2]
  · intro h
    rw [extractLocation, firstLocationMatch_eq_none m h]

/-- C2 witness: a concrete entry with a location line. -/
theorem spatial_key_first_match_untrimmed_witness :
    (∃ vs, (extractLocation ("Location: B\nz".toList), vs) ∈
        buildLocationMap ["Location: B\nz".toList] ∧ "Location: B\nz".toList ∈ vs) ∧
    (∀ i cap, matchLocationAt (("Location: B\nz".toList).drop i) = some cap →
        (∀ j, j < i → matchLocationAt (("Location: B\nz".toList).drop j) = none) →
      extractLocation ("Location: B\nz".toList) = cap) ∧
    ((∀ i, matchLocationAt (("Location: B\nz".toList).drop i) = none) →
      extractLocation ("Location: B\nz".toList) = "unknown".toList) :=
  spatial_key_first_match_untrimmed ["Location: B\nz".toList] ("Location: B\nz".toList)
    (by simp)

/-! ### C6 -/

/-- C6: when the filtered recall list has length at least 2, the report
holds exactly the first two filtered results, in recall order. -/
theorem detect_report_first_two (add : List Message → Str → Except Str Unit)
    (search : Str → Str → Except Str (List SearchResult))
    (cur loc userId now : Str) (fp : List SearchResult)
    (hfp : fp = filterPrevious (searchMemories search (queryFor loc) userId) cur)
    (h2 : 2 ≤ fp.length) :
    detectEnvironmentChanges add search cur loc userId now =
      DetectResult.report ⟨cur, loc, now, (fp.take 2).map (fun r => (r.memory, r.score))⟩ ∧
    (fp.take 2).length = 2 ∧
    fp.take 2 <+: fp := by
  subst hfp
  refine ⟨?_, ?_, List.take_prefix 2 _⟩
  · have hne : filterPrevious (searchMemories search (queryFor loc) userId) cur ≠ [] := by
      intro h
      rw [h] at h2
      simp at h2
    simp [detectEnvironmentChanges, hne]
  · rw [List.length_take]
    omega

/-- C6 witness: a recall stub returning three results none of which contain
the current observation's prefix. -/
theorem detect_report_first_two_witness :
    detectEnvironmentChanges (fun _ _ => Except.ok ())
        (fun _ _ => Except.ok [⟨"alpha".toList, 3⟩, ⟨"beta".toList, 2⟩, ⟨"gamma".toList, 1⟩])
        ("x".toList) ("loc".toList) ("u".toList) ("t".toList) =
      DetectResult.report
        ⟨"x".toList, "loc".toList, "t".toList,
         (([(⟨"alpha".toList, 3⟩ : SearchResult), ⟨"beta".toList, 2⟩,
             ⟨"gamma".toList, 1⟩].take 2).map (fun r => (r.memory, r.score)))⟩ :=
  (detect_report_first_two (fun _ _ => Except.ok ())
    (fun _ _ => Except.ok [⟨"alpha".toList, 3⟩, ⟨"beta".toList, 2⟩, ⟨"gamma".toList, 1⟩])
    ("x".toList) ("loc".toList) ("u".toList) ("t".toList)
    [⟨"alpha".toList, 3⟩, ⟨"beta".toList, 2⟩, ⟨"gamma".toList, 1⟩]
    (by decide) (by decide)).1

/-! ### C7 -/

/-- C7: build-spatial-map requests one page of size 50, so the reported
total is min 50 of the remote count, never exceeds 50, and every entry in
every bucket comes from the first 50 remotely stored entries. -/
theorem spatial_single_page (remote : List Str) :
    (buildSpatialMapTool remote).totalObservations = min 50 remote.length ∧
    (buildSpatialMapTool remote).totalObservations ≤ 50 ∧
    ∀ kv ∈ (buildSpatialMapTool remote).spatialMap, ∀ x ∈ kv.2, x ∈ remote.take 50 := by
  have hlist : listAll remote 1 50 = remote.take 50 := by
    simp [listAll]
  refine ⟨?_, ?_, ?_⟩
  · simp [buildSpatialMapTool, buildSpatialMap, hlist]
  · simp [buildSpatialMapTool, buildSpatialMap, hlist]
  · intro kv hkv x hx
    have hmap : (buildSpatialMapTool remote).spatialMap = buildLocationMap (remote.take 50) := by
      simp [buildSpatialMapTool, buildSpatialMap, hlist]
    rw [hmap, buildLocationMap_eq_spatialFold] at hkv
    exact spatialFold_vals (fun y => y ∈ remote.take 50) (remote.take 50) []
      (by simp) (fun y hy => hy) kv hkv x hx

/-- C7 witness: one remote entry. -/
theorem spatial_single_page_witness :
    (buildSpatialMapTool ["e".toList]).totalObservations = min 50 (["e".toList] : List Str).length :=
  (spatial_single_page ["e".toList]).1

/-! ### C10 -/

/-- C10: in every successful build-spatial-map response, totalObservations
is the sum of the bucket sizes, locationCount is the number of distinct
keys, the keys are pairwise distinct, no bucket is empty, and every scanned
entry lands in the bucket of its extracted location. -/
theorem spatial_map_invariants (results : List Str) :
    (buildSpatialMap results).totalObservations = sumLens (buildSpatialMap results).spatialMap ∧
    (buildSpatialMap results).locationCount =
      ((mapKeys (buildSpatialMap results).spatialMap).dedup).length ∧
    (mapKeys (buildSpatialMap results).spatialMap).Nodup ∧
    (∀ kv ∈ (buildSpatialMap results).spatialMap, kv.2 ≠ []) ∧
    (∀ x ∈ results, ∃ vs,
      (extractLocation x, vs) ∈ (buildSpatialMap results).spatialMap ∧ x ∈ vs) := by
  have hmap : (buildSpatialMap results).spatialMap = buildLocationMap results := rfl
  have hnodup : (mapKeys (buildLocationMap results)).Nodup := by
    rw [buildLocationMap_eq_spatialFold]
    exact spatialFold_nodup results [] (by simp [mapKeys])
  refine ⟨?_, ?_, by rwa [hmap], ?_, ?_⟩
  · show results.length = sumLens (buildLocationMap results)
    rw [buildLocationMap_eq_spatialFold, spatialFold_sumLens]
    simp [sumLens, spatialFold]
  · show (buildLocationMap results).length = _
    rw [hmap, hnodup.dedup]
    simp [mapKeys]
  · rw [hmap, buildLocationMap_eq_spatialFold]
    exact spatialFold_nonempty results [] (by simp)
  · intro x hx
    rw [hmap, buildLocationMap_eq_spatialFold]
    exact spatialFold_mem_of_mem results x hx []

/-- C10 witness: the three-entry example from the spec. -/
theorem spatial_map_invariants_witness :
    (buildSpatialMap ["Location: A\nfoo".toList, "Location: A\nbar".toList,
        "baz".toList]).totalObservations =
      sumLens (buildSpatialMap ["Location: A\nfoo".toList, "Location: A\nbar".toList,
        "baz".toList]).spatialMap :=
  (spatial_map_invariants ["Location: A\nfoo".toList, "Location: A\nbar".toList,
    "baz".toList]).1

end Mem0Robot
